import Mathlib

/-!
Shallow embedding of the job orchestration core of the subtitle-cockpit
repository (src/windsurf-project/src/job_queue.py, with one helper family
from src/windsurf-project/src/app.py), together with theorems settling the
frozen claims about it.

Modelling conventions:
* ISO-8601 timestamp strings produced by datetime.now().isoformat() are
  totally ordered consistently with time, so timestamps are modelled as Nat
  (seconds for job clocks, days for credential cooldown bookkeeping).
* The SQLite jobs table is a List Job whose id column is the primary key;
  SQL statements become list transformations.
* The JSON params blob is modelled structurally as an association list; the
  json.dumps/json.loads round trip on a dict is the identity at that level.
* Python dict truthiness (empty dict and None are falsy) is modelled
  explicitly where the source relies on it.
-/

namespace SubCockpit

/-- Job status constants STATUS_PENDING .. STATUS_TIMEOUT from job_queue.py. -/
inductive Status where
  | pending
  | running
  | completed
  | failed
  | timeout
deriving DecidableEq, Repr

/-- Terminal statuses, the list [STATUS_COMPLETED, STATUS_FAILED, STATUS_TIMEOUT]
used by update_job_status. -/
def Status.isTerminal : Status → Bool
  | .completed => true
  | .failed => true
  | .timeout => true
  | _ => false

/-- Structured params blob (a Python dict str → value captured at enqueue),
modelled as an association list. -/
abbrev Params := List (String × String)

/-- One row of the jobs table (see _init_db in job_queue.py). The params and
result columns hold serialized blobs; params is modelled structurally
(json.loads ∘ json.dumps = id on dicts), result is kept opaque as a String. -/
structure Job where
  id : Nat
  job_type : String
  status : Status
  file_path : String
  params : Option Params
  created_at : Nat
  started_at : Option Nat
  completed_at : Option Nat
  error_message : Option String
  result : Option String
deriving DecidableEq, Repr

/-- Column value stored for params by add_job:
json.dumps(params) if params else None. A None argument and an empty dict
are both falsy in Python, hence stored as NULL. -/
def storedParams (params : Option Params) : Option Params :=
  match params with
  | some l => if l.isEmpty then none else some l
  | none => none

/-- Params value seen by _execute_job when reading a row back:
json.loads(job['params']) if job['params'] else {}. -/
def readParams (stored : Option Params) : Params :=
  match stored with
  | some l => l
  | none => []

/-- Fresh id for an inserted row; models INTEGER PRIMARY KEY AUTOINCREMENT,
which assigns an id strictly larger than every existing one. -/
def freshId (jobs : List Job) : Nat :=
  1 + (jobs.map Job.id).foldr max 0

/-- Embedding of add_job: INSERT a new pending row with created_at = now and
the serialized params column. -/
def add_job (now : Nat) (jobs : List Job) (job_type file_path : String)
    (params : Option Params) : List Job :=
  jobs ++ [{ id := freshId jobs
             job_type := job_type
             status := .pending
             file_path := file_path
             params := storedParams params
             created_at := now
             started_at := none
             completed_at := none
             error_message := none
             result := none }]

/-- Comparator for ORDER BY created_at ASC. -/
def createdLe (a b : Job) : Bool :=
  decide (a.created_at ≤ b.created_at)

/-- Embedding of get_pending_jobs: SELECT * WHERE status = pending
ORDER BY created_at ASC LIMIT limit. -/
def get_pending_jobs (jobs : List Job) (limit : Nat) : List Job :=
  ((jobs.filter (fun j => j.status = .pending)).mergeSort createdLe).take limit

/-- Count of rows in status running (len(self.get_running_jobs())). -/
def runningCount (jobs : List Job) : Nat :=
  jobs.countP (fun j => j.status = .running)

/-- Embedding of update_job_status applied to one row (the row whose id
matched the WHERE clause): sets status, sets started_at when the new status
is running, sets completed_at when it is terminal, and overwrites
error_message / result only when the corresponding argument is not None.
No condition on the row's previous status is checked. -/
def update_job_status (now : Nat) (job : Job) (status : Status)
    (error_message : Option String) (result : Option String) : Job :=
  let job := { job with status := status }
  let job :=
    if status = .running then { job with started_at := some now }
    else if status.isTerminal then { job with completed_at := some now }
    else job
  let job :=
    match error_message with
    | some e => { job with error_message := some e }
    | none => job
  match result with
  | some r => { job with result := some r }
  | none => job

/-- Store-level update: UPDATE jobs SET ... WHERE id = ?. -/
def update_store (now : Nat) (jobs : List Job) (id : Nat) (status : Status)
    (error_message : Option String) (result : Option String) : List Job :=
  jobs.map (fun j => if j.id = id then update_job_status now j status error_message result else j)

/-- Embedding of delete_job: SELECT status WHERE id = ?; if no row or status
is not pending, return False leaving the table unchanged; otherwise DELETE
the row and return True. -/
def delete_job (jobs : List Job) (id : Nat) : Bool × List Job :=
  match jobs.find? (fun j => j.id = id) with
  | none => (false, jobs)
  | some j =>
    if j.status = .pending then
      (true, jobs.filter (fun x => ¬ x.id = id))
    else
      (false, jobs)

/-- Embedding of cleanup_old_jobs: DELETE terminal rows with
completed_at < cutoff (a NULL completed_at never compares below the cutoff). -/
def cleanup_old_jobs (cutoff : Nat) (jobs : List Job) : List Job :=
  jobs.filter (fun j =>
    ! (j.status.isTerminal && (match j.completed_at with
                               | some c => decide (c < cutoff)
                               | none => false)))

/-- Timeout table JOB_TIMEOUTS, read with .get(job_type, 600): unknown job
types fall back to 600 seconds. -/
def JOB_TIMEOUTS (job_type : String) : Nat :=
  if job_type = "extract" then 300
  else if job_type = "sup_to_srt" then 600
  else if job_type = "translate" then 1800
  else if job_type = "search_subtitles" then 600
  else if job_type = "sync_subtitles" then 1800
  else if job_type = "publish_subtitles" then 600
  else 600

/-- Body of the _check_timeouts sweep for one running row: if
now - started_at exceeds the configured timeout, write status timeout with
the descriptive message; a job that is not running (the sweep only fetches
running rows) or within its budget is left unchanged. -/
def timeoutStep (now : Nat) (j : Job) : Job :=
  if j.status = .running then
    match j.started_at with
    | some st =>
      let timeout := JOB_TIMEOUTS j.job_type
      if now - st > timeout then
        update_job_status now j .timeout
          (some ("Job exceeded timeout of " ++ toString timeout ++ "s")) none
      else j
    | none => j
  else j

/-- Embedding of _check_timeouts over the whole table. -/
def check_timeouts (now : Nat) (jobs : List Job) : List Job :=
  jobs.map (timeoutStep now)

/-- Embedding of _start_job's synchronous store write: the admitted job is
set to running before its execution thread is spawned. -/
def start_job (now : Nat) (jobs : List Job) (id : Nat) : List Job :=
  update_store now jobs id .running none none

/-- One iteration of the _process_jobs loop (without the hourly cleanup,
which only removes terminal rows): run the timeout sweep, then, if the
running count is below max_parallel, admit up to the free slots of the
oldest pending jobs, transitioning each to running. -/
def process_iteration (now maxParallel : Nat) (jobs : List Job) : List Job :=
  let jobs := check_timeouts now jobs
  let running_count := runningCount jobs
  if running_count < maxParallel then
    let slots_available := maxParallel - running_count
    let pending_jobs := get_pending_jobs jobs slots_available
    pending_jobs.foldl (fun js j => start_job now js j.id) jobs
  else jobs

/-- The six known job types dispatched by _execute_job. -/
def knownJobTypes : List String :=
  ["extract", "sup_to_srt", "translate", "search_subtitles",
   "sync_subtitles", "publish_subtitles"]

/-- Dispatch table of _execute_job. The six type-specific handlers are
external collaborator calls, abstracted as the runHandler argument; a raised
Python exception is an Except.error carrying str(e). An unrecognized
job_type raises ValueError('Unknown job type: ...'). -/
def dispatch (runHandler : String → String → Params → Except String String)
    (job_type file_path : String) (params : Params) : Except String String :=
  if job_type ∈ knownJobTypes then
    runHandler job_type file_path params
  else
    .error ("Unknown job type: " ++ job_type)

/-- Embedding of _execute_job: read the params column back, dispatch inside
the try block, and reduce the outcome to a single status write — completed
with the serialized result on normal return, failed with str(e) when the
handler raised. The function is total: no exception escapes the executor. -/
def execute_job (runHandler : String → String → Params → Except String String)
    (now : Nat) (job : Job) : Job :=
  let params := readParams job.params
  match dispatch runHandler job.job_type job.file_path params with
  | .ok result => update_job_status now job .completed none (some result)
  | .error e => update_job_status now job .failed (some e) none

/-! ## Credential / provider failover (translation jobs)

Embedding of `_translate_with_failover` (job_queue.py, the function the job
executor calls for translate jobs) and, for comparison, of the API layer's
`_switch_to_next_api_key` (app.py). The underlying translation operation
(`_run_local_translation`) is an external collaborator modelled as an oracle
`run attempt provider key`, returning none on success and some error message
on failure. Writing the settings file back (json.dump) is modelled by the
settings record carried through and returned. -/

/-- One configured API key dict of the settings file: value, active flag and
bookkeeping fields. app.py's schema stores last_usage; job_queue.py's success
path writes a separate last_used entry into the dict. Timestamps are Nat
(days, matching the .days cooldown comparison in app.py). -/
structure KeyInfo where
  value : String
  active : Bool
  vpn_config : String := ""
  last_usage : Option Nat := none
  last_used : Option Nat := none
  last_error : Option String := none
  last_error_at : Option Nat := none
deriving DecidableEq, Repr, Inhabited

/-- Lookup in a Python dict modelled as an association list:
d.get(k, default). -/
def dget {α : Type} (d : List (String × α)) (k : String) (dfl : α) : α :=
  match d.find? (fun p => p.1 = k) with
  | some p => p.2
  | none => dfl

/-- Store into a Python dict modelled as an association list: replaces the
first binding of k, appending if absent. In-place mutation of a list held
under key k in the source becomes dset with the mutated list. -/
def dset {α : Type} (d : List (String × α)) (k : String) (v : α) : List (String × α) :=
  match d with
  | [] => [(k, v)]
  | (k0, v0) :: rest => if k0 = k then (k, v) :: rest else (k0, v0) :: dset rest k v

/-- Subset of the settings record read and mutated by the failover code. -/
structure Settings where
  provider : String
  provider_keys : List (String × List KeyInfo)
  auto_change_key_on_error : List (String × Bool)
  auto_switch_on_error : Bool
  retry_after_days : List (String × Nat)
deriving DecidableEq, Repr

/-- The key-based providers, the literal list ['DeepL', 'Azure', 'Gemini']. -/
def bigThree : List String := ["DeepL", "Azure", "Gemini"]

/-- Replace the element at index i (list unchanged when i is out of range);
models an in-place item assignment keys_list[i][...] = ... -/
def modifyAt {α : Type} : List α → Nat → (α → α) → List α
  | [], _, _ => []
  | a :: rest, 0, f => f a :: rest
  | a :: rest, n + 1, f => a :: modifyAt rest n f

/-- Key acquisition at the top of each failover iteration: for a key-based
provider, fail fast when the provider has no keys or no active key, else
return the first key flagged active; providers outside the big three carry
no key. -/
def acquireKey (settings : Settings) (provider : String) : Except String (Option KeyInfo) :=
  if provider ∈ bigThree then
    let keys_list := dget settings.provider_keys provider []
    if keys_list.isEmpty then .error ("No API keys configured for " ++ provider)
    else
      match keys_list.find? (fun k => k.active) with
      | some k => .ok (some k)
      | none => .error ("No active API key for " ++ provider)
  else .ok none

/-- The inline key rotation of _translate_with_failover: find the index of
the first active key (switched stays False when none is found), clear its
active flag and set the flag of the key at (index + 1) mod len. Neither
retry_after_days nor last_error_at is consulted, and nothing prevents the
rotation when only one key exists. -/
def switch_to_next_key (ks : List KeyInfo) : List KeyInfo × Bool :=
  match ks.findIdx? (fun k => k.active) with
  | none => (ks, false)
  | some current_idx =>
    let ks1 := modifyAt ks current_idx (fun k => { k with active := false })
    let next_idx := (current_idx + 1) % ks1.length
    (modifyAt ks1 next_idx (fun k => { k with active := true }), true)

/-- Success bookkeeping of _translate_with_failover: set last_used on the
active key (the alias written through active_key_info). -/
def record_last_used (now : Nat) (ks : List KeyInfo) : List KeyInfo :=
  match ks.findIdx? (fun k => k.active) with
  | some i => modifyAt ks i (fun k => { k with last_used := some now })
  | none => ks

/-- Provider rotation providers[(providers.index(provider) + 1) % 3], with
index 0 used when the provider is not in the list. -/
def next_provider_of (provider : String) : String :=
  let providers := bigThree
  let current_idx := (providers.findIdx? (fun p => p = provider)).getD 0
  providers.getD ((current_idx + 1) % providers.length) "DeepL"

/-- Result of the failover loop: the (success, message) pair returned, the
settings as last persisted, and the number of invocations of the underlying
translation operation (observation instrumentation, not program state). -/
structure FailoverOutcome where
  success : Bool
  message : String
  settings : Settings
  calls : Nat
deriving DecidableEq, Repr

/-- Success bookkeeping of the loop body: when a key was in use, write
last_used on the active key (through the active_key_info alias) before
persisting. -/
def success_bookkeeping (now : Nat) (provider : String) (key : Option KeyInfo)
    (settings : Settings) : Settings :=
  if key.isSome then
    let pk := dset settings.provider_keys provider
      (record_last_used now (dget settings.provider_keys provider []))
    { settings with provider_keys := pk }
  else settings

/-- Failure handling of the loop body: try the key rotation when
auto_change_key_on_error is set for a key-based provider; otherwise switch
provider when auto_switch_on_error is set and attempts remain. Returns the
updated settings, the provider for the next attempt, and the switched
flag. -/
def failover_switch (maxAttempts attempt : Nat) (provider : String)
    (key : Option KeyInfo) (settings : Settings) : Settings × String × Bool :=
  let step1 :=
    if provider ∈ bigThree ∧ key.isSome then
      if dget settings.auto_change_key_on_error provider false then
        let ks_sw := switch_to_next_key (dget settings.provider_keys provider [])
        let pk := dset settings.provider_keys provider ks_sw.1
        (if ks_sw.2 then { settings with provider_keys := pk }
         else settings, ks_sw.2)
      else (settings, false)
    else (settings, false)
  if step1.2 then (step1.1, provider, true)
  else if step1.1.auto_switch_on_error ∧ attempt < maxAttempts - 1 then
    let np := next_provider_of provider
    ({ step1.1 with provider := np }, np, true)
  else (step1.1, provider, false)

/-- Body of the attempt loop of _translate_with_failover, recursing on the
remaining fuel (maxAttempts - attempt). Each iteration: acquire a key (fail
fast on configuration errors), invoke the translation oracle once; on
success record last_used and return; on failure rotate the key or switch
provider per failover_switch; stop with the attempt error message when
neither switch occurred, and with the generic message when the fuel runs
out. -/
def failoverGo (run : Nat → String → Option KeyInfo → Option String) (now : Nat)
    (maxAttempts : Nat) :
    Nat → Nat → String → Settings → FailoverOutcome
  | 0, _, _, settings =>
    { success := false, message := "Translation failed after all attempts"
      settings := settings, calls := 0 }
  | fuel + 1, attempt, provider, settings =>
    match acquireKey settings provider with
    | .error msg => { success := false, message := msg, settings := settings, calls := 0 }
    | .ok active_key_info =>
      match run attempt provider active_key_info with
      | none =>
        { success := true, message := "Translation completed"
          settings := success_bookkeeping now provider active_key_info settings
          calls := 1 }
      | some error_msg =>
        let sw := failover_switch maxAttempts attempt provider active_key_info settings
        if sw.2.2 then
          let rest := failoverGo run now maxAttempts fuel (attempt + 1) sw.2.1 sw.1
          { rest with calls := rest.calls + 1 }
        else
          { success := false, message := error_msg, settings := sw.1, calls := 1 }

/-- Embedding of _translate_with_failover: max_attempts = 2, starting at
attempt 0 from the configured provider. -/
def translate_with_failover (run : Nat → String → Option KeyInfo → Option String)
    (now : Nat) (settings : Settings) : FailoverOutcome :=
  failoverGo run now 2 2 0 settings.provider settings

/-- Cooldown test of app.py's _switch_to_next_api_key: a candidate is
skipped when retry_after_days > 0, it has a last_error_at, and fewer than
retry_after_days days have passed since. -/
def keyInCooldown (now retry_days : Nat) (k : KeyInfo) : Bool :=
  if retry_days > 0 then
    match k.last_error_at with
    | some t => decide (now - t < retry_days)
    | none => false
  else false

/-- Cyclic scan of app.py's _switch_to_next_api_key over the offsets
range(1, len(keys_list)): the first candidate not in cooldown wins. -/
def scanNextKey (now retry_days : Nat) (keys_list : List KeyInfo) (current_idx : Nat) :
    List Nat → Option Nat
  | [] => none
  | offset :: rest =>
    let next_idx := (current_idx + offset) % keys_list.length
    if keyInCooldown now retry_days (keys_list.getD next_idx default) then
      scanNextKey now retry_days keys_list current_idx rest
    else some next_idx

/-- Embedding of app.py's _switch_to_next_api_key: the cooldown-aware
rotation the spec describes. It is a no-op when fewer than 2 keys exist or
every candidate is in cooldown; otherwise exactly the selected candidate
becomes active. This helper lives in the API layer and is not called by
the job executor's failover. -/
def app_switch_to_next_api_key (now : Nat) (settings : Settings) (provider : String) :
    Settings :=
  let keys_list := dget settings.provider_keys provider []
  if keys_list.length ≤ 1 then settings
  else
    let retry_days := dget settings.retry_after_days provider 0
    let current_idx := (keys_list.findIdx? (fun k => k.active)).getD 0
    match scanNextKey now retry_days keys_list current_idx
        (List.range' 1 (keys_list.length - 1)) with
    | some next_idx =>
      let ks := keys_list.enum.map (fun p => { p.2 with active := decide (p.1 = next_idx) })
      { settings with provider_keys := dset settings.provider_keys provider ks }
    | none => settings

/-! ## Helper lemmas -/

theorem modifyAt_length {α : Type} (l : List α) (i : Nat) (f : α → α) :
    (modifyAt l i f).length = l.length := by
  induction l generalizing i with
  | nil => rfl
  | cons a rest ih =>
    cases i with
    | zero => rfl
    | succ n => simpa [modifyAt] using ih n

theorem modifyAt_getD {α : Type} (l : List α) (i j : Nat) (f : α → α) (d : α)
    (hj : j < l.length) :
    (modifyAt l i f).getD j d = if j = i then f (l.getD j d) else l.getD j d := by
  induction l generalizing i j with
  | nil => simp at hj
  | cons a rest ih =>
    cases i with
    | zero =>
      cases j with
      | zero => simp [modifyAt]
      | succ m => simp [modifyAt]
    | succ n =>
      cases j with
      | zero => simp [modifyAt]
      | succ m =>
        have hm : m < rest.length := by simpa using hj
        simpa [modifyAt, Nat.succ_inj] using ih n m hm

theorem update_job_status_status (now : Nat) (j : Job) (s : Status) (e r : Option String) :
    (update_job_status now j s e r).status = s := by
  cases e <;> cases r <;> simp only [update_job_status] <;> split <;>
    first | rfl | (split <;> rfl)

theorem update_job_status_id (now : Nat) (j : Job) (s : Status) (e r : Option String) :
    (update_job_status now j s e r).id = j.id := by
  cases e <;> cases r <;> simp only [update_job_status] <;> split <;>
    first | rfl | (split <;> rfl)

theorem update_job_status_started_at (now : Nat) (j : Job) (s : Status) (e r : Option String) :
    (update_job_status now j s e r).started_at =
      if s = .running then some now else j.started_at := by
  cases e <;> cases r <;> simp only [update_job_status] <;> split <;>
    first | simp_all | (split <;> simp_all)

theorem update_job_status_completed_at (now : Nat) (j : Job) (s : Status) (e r : Option String) :
    (update_job_status now j s e r).completed_at =
      if s = .running then j.completed_at
      else if s.isTerminal then some now else j.completed_at := by
  cases e <;> cases r <;> simp only [update_job_status] <;> split <;>
    first | simp_all | (split <;> simp_all)

theorem update_job_status_error_some (now : Nat) (j : Job) (s : Status)
    (m : String) (r : Option String) :
    (update_job_status now j s (some m) r).error_message = some m := by
  cases r <;> simp only [update_job_status]

theorem update_job_status_result_some (now : Nat) (j : Job) (s : Status)
    (e : Option String) (m : String) :
    (update_job_status now j s e (some m)).result = some m := by
  cases e <;> simp only [update_job_status]

/-- Condition under which the sweep rewrites a job: it is running and its
elapsed time exceeds the configured timeout. -/
def overdue (now : Nat) (j : Job) : Bool :=
  decide (j.status = .running) &&
    (match j.started_at with
     | some st => decide (now - st > JOB_TIMEOUTS j.job_type)
     | none => false)

theorem timeoutStep_eq (now : Nat) (j : Job) :
    timeoutStep now j =
      if overdue now j then
        update_job_status now j .timeout
          (some ("Job exceeded timeout of " ++ toString (JOB_TIMEOUTS j.job_type) ++ "s")) none
      else j := by
  unfold timeoutStep overdue
  by_cases hrun : j.status = .running
  · rw [if_pos hrun]
    cases hst : j.started_at with
    | none => simp [hst, hrun]
    | some st =>
      by_cases hover : now - st > JOB_TIMEOUTS j.job_type
      · simp [hst, hover, hrun]
      · simp [hst, hover, hrun]
  · rw [if_neg hrun]
    simp [hrun]

/-! ## C10 — params conflation at the enqueue/execute interface -/

/-- C10: a job enqueued with an empty params map is stored identically to
one enqueued with no params (both persist the params column as NULL), the
executor reads the column back as the empty map in both cases, and in
general the params seen by the handler equal the params passed at enqueue
with the empty map and absent params conflated. -/
theorem C10_params_conflation :
    (storedParams (some ([] : Params)) = none ∧ storedParams none = none) ∧
    (∀ p : Option Params, readParams (storedParams p) = p.getD []) ∧
    (∀ now jobs jt fp p, ∃ j : Job,
        add_job now jobs jt fp p = jobs ++ [j] ∧
        j.params = storedParams p ∧
        readParams j.params = p.getD [] ∧
        j.status = .pending ∧ j.created_at = now) := by
  refine ⟨⟨rfl, rfl⟩, ?_, ?_⟩
  · intro p
    match p with
    | none => rfl
    | some [] => rfl
    | some (x :: l) => rfl
  · intro now jobs jt fp p
    refine ⟨_, rfl, rfl, ?_, rfl, rfl⟩
    match p with
    | none => rfl
    | some [] => rfl
    | some (x :: l) => rfl

/-! ## C9 — delete only while pending -/

/-- C9: delete_job returns true iff a job with the given id exists and is
pending immediately before the call, in which case exactly that row is
removed; in every other case it returns false and the table is unchanged. -/
theorem C9_delete_iff_pending (jobs : List Job) (id : Nat) :
    ((delete_job jobs id).1 = true ↔
      ∃ j, jobs.find? (fun x => decide (x.id = id)) = some j ∧ j.status = .pending) ∧
    ((delete_job jobs id).1 = true →
      (delete_job jobs id).2 = jobs.filter (fun x => ¬ x.id = id)) ∧
    ((delete_job jobs id).1 = false → (delete_job jobs id).2 = jobs) := by
  unfold delete_job
  cases h : jobs.find? (fun x => decide (x.id = id)) with
  | none => simp
  | some j =>
    by_cases hp : j.status = .pending <;> simp [hp]

/-- Closed instantiation of C9 on a concrete table: a pending job is
deleted (returning true) and the resulting table no longer contains it. -/
theorem C9_delete_iff_pending_witness :
    (delete_job
      [{ id := 1, job_type := "extract", status := .pending, file_path := "a.mkv",
         params := none, created_at := 5, started_at := none, completed_at := none,
         error_message := none, result := none }] 1).1 = true ∧
    (delete_job
      [{ id := 1, job_type := "extract", status := .pending, file_path := "a.mkv",
         params := none, created_at := 5, started_at := none, completed_at := none,
         error_message := none, result := none }] 1).2 = [] := by
  constructor
  · exact (C9_delete_iff_pending _ 1).1.mpr ⟨_, rfl, rfl⟩
  · have h := (C9_delete_iff_pending
      [{ id := 1, job_type := "extract", status := .pending, file_path := "a.mkv",
         params := none, created_at := 5, started_at := none, completed_at := none,
         error_message := none, result := none }] 1).2.1 (by decide)
    simpa using h

/-! ## C7 — executor error boundary -/

/-- C7: for every job whose handler raises (including an unknown job_type,
which raises ValueError), the executor catches the exception, writes failed
with the exception message, and — execute_job being a total function on the
Except-modelled handlers — nothing propagates; for every job whose handler
returns normally, the job is written completed with the handler result. -/
theorem C7_executor_boundary
    (h : String → String → Params → Except String String) (now : Nat) (job : Job) :
    (∀ e, dispatch h job.job_type job.file_path (readParams job.params) = .error e →
        (execute_job h now job).status = .failed ∧
        (execute_job h now job).error_message = some e ∧
        (execute_job h now job).completed_at = some now) ∧
    (∀ r, dispatch h job.job_type job.file_path (readParams job.params) = .ok r →
        (execute_job h now job).status = .completed ∧
        (execute_job h now job).result = some r ∧
        (execute_job h now job).completed_at = some now) ∧
    (job.job_type ∉ knownJobTypes →
        (execute_job h now job).status = .failed ∧
        (execute_job h now job).error_message = some ("Unknown job type: " ++ job.job_type)) := by
  refine ⟨?_, ?_, ?_⟩
  · intro e he
    simp only [execute_job, he]
    exact ⟨update_job_status_status .., update_job_status_error_some ..,
      by rw [update_job_status_completed_at]; rfl⟩
  · intro r hr
    simp only [execute_job, hr]
    exact ⟨update_job_status_status .., update_job_status_result_some ..,
      by rw [update_job_status_completed_at]; rfl⟩
  · intro hunk
    have hd : dispatch h job.job_type job.file_path (readParams job.params) =
        .error ("Unknown job type: " ++ job.job_type) := by
      simp [dispatch, hunk]
    simp only [execute_job, hd]
    exact ⟨update_job_status_status .., update_job_status_error_some ..⟩

/-- Closed instantiation of C7: a job of an unrecognized type is written
failed with the ValueError message, and a raising extract handler is
converted to failed with its message. -/
theorem C7_executor_boundary_witness :
    (execute_job (fun _ _ _ => .error "boom") 7
      { id := 3, job_type := "mystery", status := .running, file_path := "x",
        params := none, created_at := 0, started_at := some 1, completed_at := none,
        error_message := none, result := none }).status = Status.failed ∧
    (execute_job (fun _ _ _ => .error "boom") 7
      { id := 4, job_type := "extract", status := .running, file_path := "x",
        params := none, created_at := 0, started_at := some 1, completed_at := none,
        error_message := none, result := none }).error_message = some "boom" := by
  constructor
  · exact ((C7_executor_boundary (fun _ _ _ => .error "boom") 7
      { id := 3, job_type := "mystery", status := .running, file_path := "x",
        params := none, created_at := 0, started_at := some 1, completed_at := none,
        error_message := none, result := none }).2.2 (by decide)).1
  · exact ((C7_executor_boundary (fun _ _ _ => .error "boom") 7
      { id := 4, job_type := "extract", status := .running, file_path := "x",
        params := none, created_at := 0, started_at := some 1, completed_at := none,
        error_message := none, result := none }).1 "boom" rfl).2.1

/-! ## C8 — timeout sweep -/

/-- C8: the sweep maps over every running job; whenever now - started_at
exceeds the type's configured timeout (the table being extract = 300,
sup_to_srt = 600, translate = 1800, search_subtitles = 600,
sync_subtitles = 1800, publish_subtitles = 600, with 600 for unknown
types), the job is transitioned to timeout carrying a message stating the
configured limit; jobs within budget or not running are left unchanged. -/
theorem C8_timeout_sweep :
    (JOB_TIMEOUTS "extract" = 300 ∧ JOB_TIMEOUTS "sup_to_srt" = 600 ∧
     JOB_TIMEOUTS "translate" = 1800 ∧ JOB_TIMEOUTS "search_subtitles" = 600 ∧
     JOB_TIMEOUTS "sync_subtitles" = 1800 ∧ JOB_TIMEOUTS "publish_subtitles" = 600) ∧
    (∀ t, t ∉ knownJobTypes → JOB_TIMEOUTS t = 600) ∧
    (∀ now jobs, check_timeouts now jobs = jobs.map (timeoutStep now)) ∧
    (∀ now j st, j.status = .running → j.started_at = some st →
        now - st > JOB_TIMEOUTS j.job_type →
        (timeoutStep now j).status = .timeout ∧
        (timeoutStep now j).error_message =
          some ("Job exceeded timeout of " ++ toString (JOB_TIMEOUTS j.job_type) ++ "s") ∧
        (timeoutStep now j).completed_at = some now) ∧
    (∀ now j st, j.status = .running → j.started_at = some st →
        ¬ now - st > JOB_TIMEOUTS j.job_type → timeoutStep now j = j) ∧
    (∀ now j, ¬ j.status = .running → timeoutStep now j = j) := by
  refine ⟨⟨rfl, rfl, rfl, rfl, rfl, rfl⟩, ?_, fun _ _ => rfl, ?_, ?_, ?_⟩
  · intro t ht
    simp only [knownJobTypes, List.mem_cons, List.mem_singleton, not_or] at ht
    obtain ⟨h1, h2, h3, h4, h5, h6, -⟩ := ht
    simp [JOB_TIMEOUTS, h1, h2, h3, h4, h5, h6]
  · intro now j st hrun hst hover
    have hod : overdue now j = true := by simp [overdue, hrun, hst, hover]
    rw [timeoutStep_eq, if_pos hod]
    exact ⟨update_job_status_status .., update_job_status_error_some ..,
      by rw [update_job_status_completed_at]; rfl⟩
  · intro now j st hrun hst hover
    have hod : ¬ overdue now j = true := by simp [overdue, hrun, hst, hover]
    rw [timeoutStep_eq, if_neg hod]
  · intro now j hrun
    have hod : ¬ overdue now j = true := by simp [overdue, hrun]
    rw [timeoutStep_eq, if_neg hod]

/-- Closed instantiation of C8: a translate job running for 1801 seconds is
swept to timeout with the message naming the 1800 s limit, while one
running for 1800 seconds is untouched. -/
theorem C8_timeout_sweep_witness :
    (timeoutStep 1801
      { id := 9, job_type := "translate", status := .running, file_path := "x",
        params := none, created_at := 0, started_at := some 0, completed_at := none,
        error_message := none, result := none }).status = Status.timeout ∧
    (timeoutStep 1800
      { id := 9, job_type := "translate", status := .running, file_path := "x",
        params := none, created_at := 0, started_at := some 0, completed_at := none,
        error_message := none, result := none }) =
      { id := 9, job_type := "translate", status := .running, file_path := "x",
        params := none, created_at := 0, started_at := some 0, completed_at := none,
        error_message := none, result := none } := by
  constructor
  · exact (C8_timeout_sweep.2.2.2.1 1801
      { id := 9, job_type := "translate", status := .running, file_path := "x",
        params := none, created_at := 0, started_at := some 0, completed_at := none,
        error_message := none, result := none } 0 rfl rfl (by decide)).1
  · exact C8_timeout_sweep.2.2.2.2.1 1800
      { id := 9, job_type := "translate", status := .running, file_path := "x",
        params := none, created_at := 0, started_at := some 0, completed_at := none,
        error_message := none, result := none } 0 rfl rfl (by decide)

/-! ## C2 — status state machine -/

/-- Concrete timed-out job used to exhibit the unguarded terminal
overwrite. -/
def timedOutJob : Job :=
  { id := 11, job_type := "translate", status := .timeout, file_path := "f.srt",
    params := none, created_at := 0, started_at := some 1, completed_at := some 2000,
    error_message := some "Job exceeded timeout of 1800s", result := none }

/-- C2 fails on the code: update_job_status checks nothing about the
current status, so the executor's terminal write moves a job that is
already recorded as timeout to completed (the last-write-wins race the
design notes concede). -/
theorem C2_counterexample :
    timedOutJob.status = Status.timeout ∧
    (update_job_status 2100 timedOutJob .completed none (some "r")).status
      = Status.completed ∧
    (execute_job (fun _ _ _ => .ok "done") 2100 timedOutJob).status
      = Status.completed := by
  refine ⟨rfl, update_job_status_status .., ?_⟩
  exact (update_job_status_status ..)

/-- C2 amended: along the dispatcher/executor flow the chain
pending → running → {completed | failed | timeout} is respected — admission
writes running (setting started_at), the executor always lands in exactly
completed or failed, and the sweep moves only running jobs and only to
timeout — but terminal statuses are not guarded: update_job_status applies
whatever status is requested regardless of the current one, so a terminal
record can be overwritten later (last write wins). -/
theorem C2_amended_state_machine :
    (∀ now j, (update_job_status now j .running none none).status = .running ∧
        (update_job_status now j .running none none).started_at = some now) ∧
    (∀ h now j, (execute_job h now j).status = .completed ∨
        (execute_job h now j).status = .failed) ∧
    (∀ now j, timeoutStep now j = j ∨
        (j.status = .running ∧ (timeoutStep now j).status = .timeout)) ∧
    (∀ now j s e r, (update_job_status now j s e r).status = s) := by
  refine ⟨?_, ?_, ?_, fun now j s e r => update_job_status_status ..⟩
  · intro now j
    exact ⟨update_job_status_status .., by rw [update_job_status_started_at]; rfl⟩
  · intro h now j
    simp only [execute_job]
    cases hd : dispatch h j.job_type j.file_path (readParams j.params) with
    | ok r => exact Or.inl (update_job_status_status ..)
    | error e => exact Or.inr (update_job_status_status ..)
  · intro now j
    by_cases hod : overdue now j = true
    · refine Or.inr ⟨?_, ?_⟩
      · have := hod
        simp only [overdue, Bool.and_eq_true, decide_eq_true_eq] at this
        exact this.1
      · rw [timeoutStep_eq, if_pos hod]
        exact update_job_status_status ..
    · exact Or.inl (by rw [timeoutStep_eq, if_neg hod])

/-! ## Failover lemmas -/

theorem dget_dset {α : Type} (d : List (String × α)) (k k2 : String) (v : α) (dfl : α) :
    dget (dset d k v) k2 dfl = if k2 = k then v else dget d k2 dfl := by
  induction d with
  | nil =>
    by_cases h : k2 = k
    · simp [dset, dget, List.find?, h]
    · simp [dset, dget, List.find?, h, Ne.symm h]
  | cons p rest ih =>
    obtain ⟨k0, v0⟩ := p
    by_cases h0 : k0 = k
    · subst h0
      by_cases h : k2 = k0
      · simp [dset, dget, List.find?, h]
      · simp [dset, dget, List.find?, h, Ne.symm h]
    · by_cases h : k2 = k0
      · subst h
        simp [dset, dget, List.find?, h0, Ne.symm h0]
      · simp only [dset, if_neg h0]
        have hstep : dget ((k0, v0) :: dset rest k v) k2 dfl = dget (dset rest k v) k2 dfl := by
          simp [dget, List.find?, Ne.symm h]
        rw [hstep, ih]
        by_cases hk : k2 = k
        · simp [hk]
        · simp [hk, dget, List.find?, Ne.symm h]

theorem map_modifyAt {α β : Type} (l : List α) (i : Nat) (f : α → α) (g : α → β)
    (hf : ∀ a, g (f a) = g a) :
    (modifyAt l i f).map g = l.map g := by
  induction l generalizing i with
  | nil => rfl
  | cons a rest ih =>
    cases i with
    | zero => simp [modifyAt, hf]
    | succ n => simp [modifyAt, ih]

theorem modifyAt_getD_proj {α β : Type} (l : List α) (i j : Nat) (f : α → α) (d : α)
    (g : α → β) (hf : ∀ a, g (f a) = g a) :
    g ((modifyAt l i f).getD j d) = g (l.getD j d) := by
  by_cases hj : j < l.length
  · rw [modifyAt_getD _ _ _ _ _ hj]
    split
    · exact hf _
    · rfl
  · have h1 : l.length ≤ j := Nat.le_of_not_lt hj
    have h2 : (modifyAt l i f).length ≤ j := by
      rw [modifyAt_length]; exact h1
    rw [List.getD_eq_default _ _ h1, List.getD_eq_default _ _ h2]

theorem switch_to_next_key_eq (ks : List KeyInfo) (i : Nat)
    (h : ks.findIdx? (fun k => k.active) = some i) :
    switch_to_next_key ks =
      (modifyAt (modifyAt ks i (fun k => { k with active := false }))
        ((i + 1) % ks.length) (fun k => { k with active := true }), true) := by
  unfold switch_to_next_key
  simp only [h, modifyAt_length]

theorem switch_to_next_key_none (ks : List KeyInfo)
    (h : ks.findIdx? (fun k => k.active) = none) :
    switch_to_next_key ks = (ks, false) := by
  unfold switch_to_next_key
  simp only [h]

theorem record_last_used_getD (now : Nat) (ks : List KeyInfo) (i : Nat)
    (h : ks.findIdx? (fun k => k.active) = some i) (j : Nat) (hj : j < ks.length) :
    (record_last_used now ks).getD j default =
      if j = i then { ks.getD j default with last_used := some now }
      else ks.getD j default := by
  unfold record_last_used
  simp only [h]
  rw [modifyAt_getD _ _ _ _ _ hj]

/-! Unfold equations of the failover loop, one per control path. -/

theorem failoverGo_zero (run : Nat → String → Option KeyInfo → Option String)
    (now maxA attempt : Nat) (provider : String) (settings : Settings) :
    failoverGo run now maxA 0 attempt provider settings =
      { success := false, message := "Translation failed after all attempts"
        settings := settings, calls := 0 } := rfl

theorem failoverGo_acquire_error (run : Nat → String → Option KeyInfo → Option String)
    (now maxA fuel attempt : Nat) (provider : String) (settings : Settings) (msg : String)
    (hacq : acquireKey settings provider = .error msg) :
    failoverGo run now maxA (fuel + 1) attempt provider settings =
      { success := false, message := msg, settings := settings, calls := 0 } := by
  conv_lhs => rw [failoverGo]
  simp only [hacq]

theorem failoverGo_success (run : Nat → String → Option KeyInfo → Option String)
    (now maxA fuel attempt : Nat) (provider : String) (settings : Settings)
    (key : Option KeyInfo)
    (hacq : acquireKey settings provider = .ok key)
    (hrun : run attempt provider key = none) :
    failoverGo run now maxA (fuel + 1) attempt provider settings =
      { success := true, message := "Translation completed"
        settings := success_bookkeeping now provider key settings, calls := 1 } := by
  conv_lhs => rw [failoverGo]
  simp only [hacq, hrun]

theorem failoverGo_fail_switched (run : Nat → String → Option KeyInfo → Option String)
    (now maxA fuel attempt : Nat) (provider : String) (settings : Settings)
    (key : Option KeyInfo) (emsg : String)
    (hacq : acquireKey settings provider = .ok key)
    (hrun : run attempt provider key = some emsg)
    (hsw : (failover_switch maxA attempt provider key settings).2.2 = true) :
    failoverGo run now maxA (fuel + 1) attempt provider settings =
      { failoverGo run now maxA fuel (attempt + 1)
          (failover_switch maxA attempt provider key settings).2.1
          (failover_switch maxA attempt provider key settings).1 with
        calls := (failoverGo run now maxA fuel (attempt + 1)
          (failover_switch maxA attempt provider key settings).2.1
          (failover_switch maxA attempt provider key settings).1).calls + 1 } := by
  conv_lhs => rw [failoverGo]
  simp only [hacq, hrun, hsw, if_true]

theorem failoverGo_fail_stop (run : Nat → String → Option KeyInfo → Option String)
    (now maxA fuel attempt : Nat) (provider : String) (settings : Settings)
    (key : Option KeyInfo) (emsg : String)
    (hacq : acquireKey settings provider = .ok key)
    (hrun : run attempt provider key = some emsg)
    (hsw : (failover_switch maxA attempt provider key settings).2.2 = false) :
    failoverGo run now maxA (fuel + 1) attempt provider settings =
      { success := false, message := emsg
        settings := (failover_switch maxA attempt provider key settings).1, calls := 1 } := by
  conv_lhs => rw [failoverGo]
  simp only [hacq, hrun, hsw, Bool.false_eq_true, if_false]

/-! ## C1 — credential rotation and cooldown -/

/-- Credential A of the claim scenario: active, no recorded error. -/
def keyA : KeyInfo := { value := "A", active := true }

/-- Credential B of the claim scenario: failed 1 day before now = 100. -/
def keyB : KeyInfo := { value := "B", active := false, last_error_at := some 99 }

/-- Credential C of the claim scenario: failed 5 days before now = 100. -/
def keyC : KeyInfo := { value := "C", active := false, last_error_at := some 95 }

/-- Claim C1's scenario: provider DeepL with credentials A (active), B, C,
retry_after_days = 2, key rotation on error enabled. -/
def cooldownSettings : Settings :=
  { provider := "DeepL"
    provider_keys := [("DeepL", [keyA, keyB, keyC])]
    auto_change_key_on_error := [("DeepL", true)]
    auto_switch_on_error := false
    retry_after_days := [("DeepL", 2)] }

/-- Translation oracle that fails on the first attempt and succeeds on any
later one. -/
def failOnceRun : Nat → String → Option KeyInfo → Option String :=
  fun attempt _ _ => if attempt = 0 then some "provider error" else none

/-- C1 fails on the executor's code: in the claim's own scenario the
rotation inside _translate_with_failover promotes B — the credential that
failed 1 day ago, inside the 2-day cooldown — rather than skipping it for
C; the cited code never reads retry_after_days or last_error_at. (The
cooldown-aware scan the spec describes exists as app.py's
_switch_to_next_api_key, which on the same input does select C, but the
executor does not call it.) -/
theorem C1_counterexample :
    ((dget (translate_with_failover failOnceRun 100 cooldownSettings).settings.provider_keys
        "DeepL" []).map (fun k => (k.value, k.active)) =
      [("A", false), ("B", true), ("C", false)]) ∧
    ((dget (app_switch_to_next_api_key 100 cooldownSettings "DeepL").provider_keys
        "DeepL" []).map (fun k => (k.value, k.active)) =
      [("A", false), ("B", false), ("C", true)]) := by
  decide

/-- C1 amended: when advancing to the next credential after a failure, the
executor's rotation unconditionally promotes the credential at index
(active + 1) mod n — deactivating the active one, leaving every other flag
and all bookkeeping fields (value, last_error_at) unchanged — regardless of
last_error_at and retry_after_days; no scan or cooldown skip takes place,
so in the claim's 3-credential scenario B is promoted, not C. -/
theorem C1_amended_rotation (ks : List KeyInfo) (i : Nat)
    (h : ks.findIdx? (fun k => k.active) = some i) :
    (switch_to_next_key ks).2 = true ∧
    (switch_to_next_key ks).1.length = ks.length ∧
    ∀ j, j < ks.length →
      ((switch_to_next_key ks).1.getD j default).active =
        (if j = (i + 1) % ks.length then true
         else if j = i then false
         else (ks.getD j default).active) ∧
      ((switch_to_next_key ks).1.getD j default).value = (ks.getD j default).value ∧
      ((switch_to_next_key ks).1.getD j default).last_error_at
        = (ks.getD j default).last_error_at := by
  rw [switch_to_next_key_eq ks i h]
  refine ⟨rfl, by simp [modifyAt_length], ?_⟩
  intro j hj
  have hj1 : j < (modifyAt ks i (fun k => { k with active := false })).length := by
    rw [modifyAt_length]; exact hj
  refine ⟨?_, ?_, ?_⟩
  · rw [modifyAt_getD _ _ _ _ _ hj1, modifyAt_getD _ _ _ _ _ hj]
    by_cases h1 : j = (i + 1) % ks.length
    · simp only [if_pos h1]
    · simp only [if_neg h1]
      by_cases h2 : j = i
      · simp only [if_pos h2]
      · simp only [if_neg h2]
  · exact (modifyAt_getD_proj (modifyAt ks i (fun k => { k with active := false }))
        ((i + 1) % ks.length) j (fun k => { k with active := true }) default
        (fun k => k.value) (fun a => rfl)).trans
      (modifyAt_getD_proj ks i j (fun k => { k with active := false }) default
        (fun k => k.value) (fun a => rfl))
  · exact (modifyAt_getD_proj (modifyAt ks i (fun k => { k with active := false }))
        ((i + 1) % ks.length) j (fun k => { k with active := true }) default
        (fun k => k.last_error_at) (fun a => rfl)).trans
      (modifyAt_getD_proj ks i j (fun k => { k with active := false }) default
        (fun k => k.last_error_at) (fun a => rfl))

/-- Closed instantiation of C1's amended rotation on the scenario keys:
the rotation reports a switch and activates index 1 (credential B). -/
theorem C1_amended_rotation_witness :
    (switch_to_next_key [keyA, keyB, keyC]).2 = true ∧
    ((switch_to_next_key [keyA, keyB, keyC]).1.getD 1 default).active = true := by
  have h := C1_amended_rotation [keyA, keyB, keyC] 0 (by decide)
  refine ⟨h.1, ?_⟩
  have h1 := (h.2.2 1 (by decide)).1
  simpa using h1

/-! ## C4 — bookkeeping after attempts -/

/-- Projection of a key onto its identity and the bookkeeping fields the
spec says failure handling maintains (last_error, last_error_at and the
schema's last_usage). -/
def keyErrProj (k : KeyInfo) : String × Option String × Option Nat × Option Nat :=
  (k.value, k.last_error, k.last_error_at, k.last_usage)

/-- View of one provider's key list under keyErrProj. -/
def keysErrView (s : Settings) (p : String) : List (String × Option String × Option Nat × Option Nat) :=
  (dget s.provider_keys p []).map keyErrProj

theorem record_last_used_keeps_error_fields (now : Nat) (ks : List KeyInfo) :
    (record_last_used now ks).map keyErrProj = ks.map keyErrProj := by
  unfold record_last_used
  cases h : ks.findIdx? (fun k => k.active) with
  | none => rfl
  | some i => exact map_modifyAt _ _ _ _ (fun a => rfl)

theorem switch_keeps_error_fields (ks : List KeyInfo) :
    (switch_to_next_key ks).1.map keyErrProj = ks.map keyErrProj := by
  cases h : ks.findIdx? (fun k => k.active) with
  | none => rw [switch_to_next_key_none ks h]
  | some i =>
    rw [switch_to_next_key_eq ks i h]
    exact (map_modifyAt (modifyAt ks i (fun k => { k with active := false }))
        ((i + 1) % ks.length) (fun k => { k with active := true }) keyErrProj
        (fun a => rfl)).trans
      (map_modifyAt ks i (fun k => { k with active := false }) keyErrProj (fun a => rfl))

theorem success_bookkeeping_keeps (now : Nat) (provider : String) (key : Option KeyInfo)
    (settings : Settings) (p : String) :
    keysErrView (success_bookkeeping now provider key settings) p = keysErrView settings p := by
  unfold success_bookkeeping keysErrView
  by_cases hk : key.isSome = true
  · simp only [hk, if_true]
    rw [dget_dset]
    by_cases hp : p = provider
    · subst hp
      rw [if_pos rfl]
      exact record_last_used_keeps_error_fields ..
    · rw [if_neg hp]
  · simp only [hk, Bool.false_eq_true, if_false]

theorem keysErrView_dset_switch (settings : Settings) (provider p : String) :
    keysErrView { settings with provider_keys := dset settings.provider_keys provider (switch_to_next_key (dget settings.provider_keys provider [])).1 } p
      = keysErrView settings p := by
  unfold keysErrView
  rw [dget_dset]
  by_cases hp : p = provider
  · subst hp
    rw [if_pos rfl]
    exact switch_keeps_error_fields ..
  · rw [if_neg hp]

theorem failover_switch_keeps (maxA attempt : Nat) (provider : String)
    (key : Option KeyInfo) (settings : Settings) (p : String) :
    keysErrView (failover_switch maxA attempt provider key settings).1 p
      = keysErrView settings p := by
  simp only [failover_switch]
  repeat' split
  all_goals
    first
      | rfl
      | exact keysErrView_dset_switch settings provider p

/-- The failover loop never changes a credential's identity or its
last_error / last_error_at / last_usage bookkeeping, for any provider. -/
theorem failoverGo_keeps_error_fields
    (run : Nat → String → Option KeyInfo → Option String) (now maxA : Nat) :
    ∀ (fuel attempt : Nat) (provider : String) (settings : Settings) (p : String),
      keysErrView (failoverGo run now maxA fuel attempt provider settings).settings p
        = keysErrView settings p := by
  intro fuel
  induction fuel with
  | zero => intro attempt provider settings p; rfl
  | succ n ih =>
    intro attempt provider settings p
    cases hacq : acquireKey settings provider with
    | error msg =>
      rw [failoverGo_acquire_error run now maxA n attempt provider settings msg hacq]
    | ok key =>
      cases hrun : run attempt provider key with
      | none =>
        rw [failoverGo_success run now maxA n attempt provider settings key hacq hrun]
        exact success_bookkeeping_keeps ..
      | some emsg =>
        cases hsw : (failover_switch maxA attempt provider key settings).2.2 with
        | true =>
          rw [failoverGo_fail_switched run now maxA n attempt provider settings key emsg
            hacq hrun hsw]
          exact (ih (attempt + 1) (failover_switch maxA attempt provider key settings).2.1
            (failover_switch maxA attempt provider key settings).1 p).trans
            (failover_switch_keeps maxA attempt provider key settings p)
        | false =>
          rw [failoverGo_fail_stop run now maxA n attempt provider settings key emsg
            hacq hrun hsw]
          exact failover_switch_keeps maxA attempt provider key settings p

/-- Claim C4's scenario: provider DeepL with two credentials, the first
active, key rotation on error enabled. -/
def twoKeySettings : Settings :=
  { provider := "DeepL"
    provider_keys := [("DeepL", [{ value := "K1", active := true }, { value := "K2", active := false }])]
    auto_change_key_on_error := [("DeepL", true)]
    auto_switch_on_error := false
    retry_after_days := [("DeepL", 0)] }

/-- C4 fails on the code: in the claim's two-credential fail-once scenario
the translation does succeed with the second credential active, but the
first credential's last_error and last_error_at are still unset — the
executor's failover records no error bookkeeping anywhere (and its success
bookkeeping writes a last_used entry, not the schema's last_usage). -/
theorem C4_counterexample :
    (translate_with_failover failOnceRun 100 twoKeySettings).success = true ∧
    ((dget (translate_with_failover failOnceRun 100 twoKeySettings).settings.provider_keys
        "DeepL" []).map (fun k => (k.value, k.active, k.last_error, k.last_error_at, k.last_usage, k.last_used))) =
      [("K1", false, none, none, none, none),
       ("K2", true, none, none, none, some 100)] :=
  ⟨rfl, rfl⟩

/-- C4 amended: the executor's failover records nothing about failures —
after any run, every credential of every provider keeps its value,
last_error, last_error_at and last_usage unchanged; after a successful
attempt it records a last_used timestamp on the first active credential of
the attempt's provider in the persisted configuration, all other fields
untouched. In the two-credential scenario the job's translation succeeds
and the second credential becomes active, but the first credential's
last_error_at remains unset. -/
theorem C4_amended_bookkeeping :
    (∀ run now settings p,
        keysErrView (translate_with_failover run now settings).settings p
          = keysErrView settings p) ∧
    (∀ run now settings key,
        acquireKey settings settings.provider = .ok key →
        run 0 settings.provider key = none →
        (translate_with_failover run now settings).success = true ∧
        (translate_with_failover run now settings).message = "Translation completed" ∧
        (translate_with_failover run now settings).calls = 1 ∧
        (key.isSome = true →
          dget (translate_with_failover run now settings).settings.provider_keys
              settings.provider []
            = record_last_used now (dget settings.provider_keys settings.provider []))) ∧
    (∀ now ks i, ks.findIdx? (fun k => k.active) = some i →
        ∀ j, j < ks.length →
          (record_last_used now ks).getD j default =
            if j = i then { ks.getD j default with last_used := some now }
            else ks.getD j default) := by
  refine ⟨?_, ?_, ?_⟩
  · intro run now settings p
    exact failoverGo_keeps_error_fields run now 2 2 0 settings.provider settings p
  · intro run now settings key hacq hrun
    have e := failoverGo_success run now 2 1 0 settings.provider settings key hacq hrun
    have e2 : translate_with_failover run now settings =
        { success := true, message := "Translation completed"
          settings := success_bookkeeping now settings.provider key settings, calls := 1 } := e
    refine ⟨by rw [e2], by rw [e2], by rw [e2], ?_⟩
    intro hk
    rw [e2]
    show dget (success_bookkeeping now settings.provider key settings).provider_keys
        settings.provider [] = _
    unfold success_bookkeeping
    rw [if_pos hk]
    show dget (dset settings.provider_keys settings.provider _) settings.provider [] = _
    rw [dget_dset, if_pos rfl]
  · intro now ks i h j hj
    exact record_last_used_getD now ks i h j hj

/-- Closed instantiation of C4's amended claim: with the scenario settings
and a translation succeeding at once, the outcome is success and K1 carries
the last_used timestamp. -/
theorem C4_amended_bookkeeping_witness :
    (translate_with_failover (fun _ _ _ => none) 100 twoKeySettings).message
      = "Translation completed" ∧
    dget (translate_with_failover (fun _ _ _ => none) 100 twoKeySettings).settings.provider_keys
      "DeepL" [] = record_last_used 100 (dget twoKeySettings.provider_keys "DeepL" []) := by
  have h := (C4_amended_bookkeeping.2.1 (fun _ _ _ => none) 100 twoKeySettings
    (some { value := "K1", active := true }) rfl rfl)
  exact ⟨h.2.1, h.2.2.2 rfl⟩

/-! ## C5 — attempt bound and final message -/

/-- The loop makes at most fuel invocations of the underlying translation
operation. -/
theorem failoverGo_calls_le
    (run : Nat → String → Option KeyInfo → Option String) (now maxA : Nat) :
    ∀ (fuel attempt : Nat) (provider : String) (settings : Settings),
      (failoverGo run now maxA fuel attempt provider settings).calls ≤ fuel := by
  intro fuel
  induction fuel with
  | zero => intro attempt provider settings; exact Nat.le_refl 0
  | succ n ih =>
    intro attempt provider settings
    cases hacq : acquireKey settings provider with
    | error msg =>
      rw [failoverGo_acquire_error run now maxA n attempt provider settings msg hacq]
      exact Nat.zero_le _
    | ok key =>
      cases hrun : run attempt provider key with
      | none =>
        rw [failoverGo_success run now maxA n attempt provider settings key hacq hrun]
        exact Nat.succ_le_succ (Nat.zero_le n)
      | some emsg =>
        cases hsw : (failover_switch maxA attempt provider key settings).2.2 with
        | true =>
          rw [failoverGo_fail_switched run now maxA n attempt provider settings key emsg
            hacq hrun hsw]
          exact Nat.succ_le_succ (ih (attempt + 1)
            (failover_switch maxA attempt provider key settings).2.1
            (failover_switch maxA attempt provider key settings).1)
        | false =>
          rw [failoverGo_fail_stop run now maxA n attempt provider settings key emsg
            hacq hrun hsw]
          exact Nat.succ_le_succ (Nat.zero_le n)

/-- When key rotation is off for the provider and provider switching is
off, the failure handling switches nothing. -/
theorem failover_switch_no_options (maxA attempt : Nat) (provider : String)
    (key : Option KeyInfo) (settings : Settings)
    (h1 : dget settings.auto_change_key_on_error provider false = false)
    (h2 : settings.auto_switch_on_error = false) :
    failover_switch maxA attempt provider key settings = (settings, provider, false) := by
  simp only [failover_switch]
  by_cases hc : provider ∈ bigThree ∧ key.isSome = true <;>
    simp [hc, h1, h2]

/-- Translation oracle failing on every attempt, with the attempt index in
the message. -/
def failAlwaysRun : Nat → String → Option KeyInfo → Option String :=
  fun attempt _ _ => some ("err" ++ toString attempt)

/-- C5 fails on the code in its middle clause: in the two-credential
scenario with key rotation on, both attempts fail ("err0" then "err1") and
the final failure again rotates the key, so the loop exhausts and returns
the generic message "Translation failed after all attempts" — not the last
underlying attempt's message "err1". -/
theorem C5_counterexample :
    (translate_with_failover failAlwaysRun 100 twoKeySettings).success = false ∧
    (translate_with_failover failAlwaysRun 100 twoKeySettings).message
      = "Translation failed after all attempts" ∧
    (translate_with_failover failAlwaysRun 100 twoKeySettings).calls = 2 ∧
    failAlwaysRun 1 "DeepL" none = some "err1" ∧
    ¬ (translate_with_failover failAlwaysRun 100 twoKeySettings).message = "err1" := by
  refine ⟨rfl, rfl, rfl, rfl, ?_⟩
  decide

/-- Scenario exercising the other exhaustion path: no key rotation, one
provider switch on the first failure, and the second provider's failure can
switch nothing (attempt bound reached), so its own message is returned. -/
def providerSwitchSettings : Settings :=
  { provider := "DeepL"
    provider_keys := [("DeepL", [{ value := "K1", active := true }]),
                      ("Azure", [{ value := "Z1", active := true }])]
    auto_change_key_on_error := []
    auto_switch_on_error := true
    retry_after_days := [] }

/-- C5 amended: the loop invokes the underlying operation at most
maxAttempts = 2 times; if the first failure can switch nothing it stops at
once with that failure's message and unchanged settings; when all attempts
fail, the result message is the last attempt's own error message if that
final failure could not switch again, and the generic "Translation failed
after all attempts" if it could. -/
theorem C5_amended_attempts :
    (∀ run now settings, (translate_with_failover run now settings).calls ≤ 2) ∧
    (∀ run (now : Nat) settings key msg,
        acquireKey settings settings.provider = .ok key →
        run 0 settings.provider key = some msg →
        dget settings.auto_change_key_on_error settings.provider false = false →
        settings.auto_switch_on_error = false →
        translate_with_failover run now settings =
          { success := false, message := msg, settings := settings, calls := 1 }) ∧
    ((translate_with_failover failAlwaysRun 100 twoKeySettings).message
        = "Translation failed after all attempts" ∧
      (translate_with_failover failAlwaysRun 100 twoKeySettings).calls = 2) ∧
    ((translate_with_failover failAlwaysRun 100 providerSwitchSettings).message = "err1" ∧
      (translate_with_failover failAlwaysRun 100 providerSwitchSettings).calls = 2) := by
  refine ⟨?_, ?_, ⟨rfl, rfl⟩, ⟨rfl, rfl⟩⟩
  · intro run now settings
    exact failoverGo_calls_le run now 2 2 0 settings.provider settings
  · intro run now settings key msg hacq hrun h1 h2
    have hno := failover_switch_no_options 2 0 settings.provider key settings h1 h2
    have hsw : (failover_switch 2 0 settings.provider key settings).2.2 = false := by
      rw [hno]
    have e := failoverGo_fail_stop run now 2 1 0 settings.provider settings key msg
      hacq hrun hsw
    show failoverGo run now 2 2 0 settings.provider settings = _
    rw [e, hno]

/-- Closed instantiation of C5's amended claim: a DeepL failure with both
switching options off stops after one call with the underlying message. -/
theorem C5_amended_attempts_witness :
    translate_with_failover (fun _ _ _ => some "quota exceeded") 5
      { provider := "DeepL"
        provider_keys := [("DeepL", [{ value := "K1", active := true }])]
        auto_change_key_on_error := []
        auto_switch_on_error := false
        retry_after_days := [] } =
      { success := false, message := "quota exceeded"
        settings :=
          { provider := "DeepL"
            provider_keys := [("DeepL", [{ value := "K1", active := true }])]
            auto_change_key_on_error := []
            auto_switch_on_error := false
            retry_after_days := [] }
        calls := 1 } := by
  exact C5_amended_attempts.2.1 (fun _ _ _ => some "quota exceeded") 5 _
    (some { value := "K1", active := true }) "quota exceeded" rfl rfl rfl rfl

/-! ## C6 — single-credential rotation -/

/-- Claim C6's scenario: one DeepL credential, key rotation on error
enabled, provider switching disabled. -/
def singleKeySettings : Settings :=
  { provider := "DeepL"
    provider_keys := [("DeepL", [{ value := "K1", active := true }])]
    auto_change_key_on_error := [("DeepL", true)]
    auto_switch_on_error := false
    retry_after_days := [] }

/-- C6 fails on the code: with a single credential the rotation is not a
no-op — it deactivates and re-activates the same credential and sets
switched, so the failover retries (2 underlying calls, not 1) with the same
credential and returns the generic exhaustion message instead of the
attempt's failure message. -/
theorem C6_counterexample :
    (translate_with_failover (fun _ _ _ => some "err") 100 singleKeySettings).calls = 2 ∧
    (translate_with_failover (fun _ _ _ => some "err") 100 singleKeySettings).message
      = "Translation failed after all attempts" ∧
    ¬ (translate_with_failover (fun _ _ _ => some "err") 100 singleKeySettings).calls = 1 ∧
    ¬ (translate_with_failover (fun _ _ _ => some "err") 100 singleKeySettings).message
      = "err" ∧
    (dget (translate_with_failover (fun _ _ _ => some "err") 100
        singleKeySettings).settings.provider_keys "DeepL" []).map
      (fun k => (k.value, k.active)) = [("K1", true)] := by
  exact ⟨rfl, rfl, by decide, by decide, rfl⟩

/-- Abbreviation for replacing one provider's key list in the settings
record (the shape every provider_keys write in the failover takes). -/
def setProviderKeys (s : Settings) (p : String) (ks : List KeyInfo) : Settings :=
  { s with provider_keys := dset s.provider_keys p ks }

/-- C6 amended: for a key-based provider with exactly one configured
credential (active) and auto_change_key_on_error enabled but provider
switching disabled, each failed attempt still counts as a switch — the
rotation re-activates the very same credential — so the failover performs
both attempts with that credential and ends with the generic
"Translation failed after all attempts" message, the credential left
active and otherwise unchanged. -/
theorem C6_amended_single_key
    (run : Nat → String → Option KeyInfo → Option String) (now : Nat)
    (settings : Settings) (k : KeyInfo) (e0 e1 : String)
    (hp : settings.provider ∈ bigThree)
    (hks : dget settings.provider_keys settings.provider [] = [k])
    (hact : k.active = true)
    (hch : dget settings.auto_change_key_on_error settings.provider false = true)
    (hr0 : run 0 settings.provider (some k) = some e0)
    (hr1 : run 1 settings.provider (some k) = some e1) :
    (translate_with_failover run now settings).success = false ∧
    (translate_with_failover run now settings).message
      = "Translation failed after all attempts" ∧
    (translate_with_failover run now settings).calls = 2 ∧
    dget (translate_with_failover run now settings).settings.provider_keys
      settings.provider [] = [k] := by
  obtain ⟨v, a, vc, lu, lus, lerr, lea⟩ := k
  simp only [KeyInfo.active] at hact
  subst hact
  have hswK : switch_to_next_key [⟨v, true, vc, lu, lus, lerr, lea⟩] =
      ([⟨v, true, vc, lu, lus, lerr, lea⟩], true) := by
    simp [switch_to_next_key, List.findIdx?_cons, modifyAt]
  have hacq : acquireKey settings settings.provider =
      .ok (some ⟨v, true, vc, lu, lus, lerr, lea⟩) := by
    unfold acquireKey
    rw [if_pos hp, hks]
    rfl
  have hfsw : failover_switch 2 0 settings.provider
      (some ⟨v, true, vc, lu, lus, lerr, lea⟩) settings =
      (setProviderKeys settings settings.provider [⟨v, true, vc, lu, lus, lerr, lea⟩],
        settings.provider, true) := by
    simp only [failover_switch]
    rw [hks]
    simp [hp, hch, hswK, setProviderKeys]
  have hks1 : dget (setProviderKeys settings settings.provider
      [⟨v, true, vc, lu, lus, lerr, lea⟩]).provider_keys settings.provider [] =
      [⟨v, true, vc, lu, lus, lerr, lea⟩] := by
    show dget (dset settings.provider_keys settings.provider _) settings.provider [] = _
    rw [dget_dset, if_pos rfl]
  have hacq1 : acquireKey (setProviderKeys settings settings.provider
      [⟨v, true, vc, lu, lus, lerr, lea⟩]) settings.provider =
      .ok (some ⟨v, true, vc, lu, lus, lerr, lea⟩) := by
    unfold acquireKey
    rw [if_pos hp, hks1]
    rfl
  have hfsw1 : failover_switch 2 1 settings.provider
      (some ⟨v, true, vc, lu, lus, lerr, lea⟩)
      (setProviderKeys settings settings.provider [⟨v, true, vc, lu, lus, lerr, lea⟩]) =
      (setProviderKeys (setProviderKeys settings settings.provider
          [⟨v, true, vc, lu, lus, lerr, lea⟩]) settings.provider
          [⟨v, true, vc, lu, lus, lerr, lea⟩],
        settings.provider, true) := by
    simp only [failover_switch]
    rw [hks1]
    simp [hp, hch, hswK, setProviderKeys]
  have hsw0 : (failover_switch 2 0 settings.provider
      (some ⟨v, true, vc, lu, lus, lerr, lea⟩) settings).2.2 = true := by
    rw [hfsw]
  have hT : translate_with_failover run now settings =
      { success := false, message := "Translation failed after all attempts"
        settings := setProviderKeys (setProviderKeys settings settings.provider
          [⟨v, true, vc, lu, lus, lerr, lea⟩]) settings.provider
          [⟨v, true, vc, lu, lus, lerr, lea⟩]
        calls := 2 } := by
    show failoverGo run now 2 2 0 settings.provider settings = _
    rw [failoverGo_fail_switched run now 2 1 0 settings.provider settings
      (some ⟨v, true, vc, lu, lus, lerr, lea⟩) e0 hacq hr0 hsw0, hfsw]
    have hsw1b : (failover_switch 2 1 settings.provider
        (some ⟨v, true, vc, lu, lus, lerr, lea⟩)
        (setProviderKeys settings settings.provider
          [⟨v, true, vc, lu, lus, lerr, lea⟩])).2.2 = true := by
      rw [hfsw1]
    rw [failoverGo_fail_switched run now 2 0 1 settings.provider
      (setProviderKeys settings settings.provider [⟨v, true, vc, lu, lus, lerr, lea⟩])
      (some ⟨v, true, vc, lu, lus, lerr, lea⟩) e1 hacq1 hr1 hsw1b, hfsw1]
    rfl
  rw [hT]
  refine ⟨rfl, rfl, rfl, ?_⟩
  show dget (dset (dset settings.provider_keys settings.provider _) settings.provider _)
    settings.provider [] = _
  rw [dget_dset, if_pos rfl]

/-- Closed instantiation of C6's amended claim on the scenario settings. -/
theorem C6_amended_single_key_witness :
    (translate_with_failover (fun attempt _ _ => some ("fail" ++ toString attempt)) 9
      singleKeySettings).message = "Translation failed after all attempts" ∧
    (translate_with_failover (fun attempt _ _ => some ("fail" ++ toString attempt)) 9
      singleKeySettings).calls = 2 := by
  have h := C6_amended_single_key (fun attempt _ _ => some ("fail" ++ toString attempt)) 9
    singleKeySettings { value := "K1", active := true } "fail0" "fail1"
    (by decide) rfl rfl rfl rfl rfl
  exact ⟨h.2.1, h.2.2.1⟩

/-! ## C3 — admission, FIFO selection and the running bound -/

theorem timeoutStep_id_eq (now : Nat) (j : Job) : (timeoutStep now j).id = j.id := by
  rw [timeoutStep_eq]
  split
  · exact update_job_status_id ..
  · rfl

theorem timeoutStep_running_mono (now : Nat) (j : Job)
    (h : (timeoutStep now j).status = .running) : j.status = .running := by
  rw [timeoutStep_eq] at h
  by_cases hod : overdue now j = true
  · rw [if_pos hod, update_job_status_status] at h
    exact absurd h (by decide)
  · rwa [if_neg hod] at h

theorem runningCount_map_le (jobs : List Job) (f : Job → Job)
    (hf : ∀ j, (f j).status = .running → j.status = .running) :
    runningCount (jobs.map f) ≤ runningCount jobs := by
  unfold runningCount
  rw [List.countP_map]
  refine List.countP_mono_left ?_
  intro j _ hj
  simp only [Function.comp_apply, decide_eq_true_eq] at hj ⊢
  exact hf j hj

theorem runningCount_check_timeouts_le (now : Nat) (jobs : List Job) :
    runningCount (check_timeouts now jobs) ≤ runningCount jobs :=
  runningCount_map_le jobs (timeoutStep now) (timeoutStep_running_mono now)

theorem runningCount_update_store_le (now : Nat) (jobs : List Job) (id : Nat) (st : Status)
    (e r : Option String) (hst : ¬ st = .running) :
    runningCount (update_store now jobs id st e r) ≤ runningCount jobs := by
  refine runningCount_map_le jobs _ ?_
  intro j hj
  by_cases hid : j.id = id
  · rw [if_pos hid, update_job_status_status] at hj
    exact absurd hj hst
  · rwa [if_neg hid] at hj

theorem map_id_update_store (now : Nat) (jobs : List Job) (id : Nat) (st : Status)
    (e r : Option String) :
    (update_store now jobs id st e r).map Job.id = jobs.map Job.id := by
  unfold update_store
  rw [List.map_map]
  refine List.map_congr_left ?_
  intro j _
  simp only [Function.comp_apply]
  by_cases hid : j.id = id
  · rw [if_pos hid]; exact update_job_status_id ..
  · rw [if_neg hid]

theorem map_id_check_timeouts (now : Nat) (jobs : List Job) :
    (check_timeouts now jobs).map Job.id = jobs.map Job.id := by
  unfold check_timeouts
  rw [List.map_map]
  refine List.map_congr_left ?_
  intro j _
  simp only [Function.comp_apply]
  exact timeoutStep_id_eq ..

theorem map_id_start_job (now : Nat) (jobs : List Job) (id : Nat) :
    (start_job now jobs id).map Job.id = jobs.map Job.id :=
  map_id_update_store ..

theorem countP_or_le {α : Type} (p q : α → Bool) (l : List α) :
    l.countP (fun a => p a || q a) ≤ l.countP p + l.countP q := by
  induction l with
  | nil => simp
  | cons a t ih =>
    by_cases hp : p a = true <;> by_cases hq : q a = true <;>
      simp [List.countP_cons, hp, hq] <;> omega

theorem countP_id_le_one (jobs : List Job) (id : Nat)
    (hnd : (jobs.map Job.id).Nodup) :
    jobs.countP (fun j => j.id = id) ≤ 1 := by
  have h1 : jobs.countP (fun j => j.id = id)
      = (jobs.map Job.id).countP (fun x => decide (x = id)) := by
    rw [List.countP_map]
    rfl
  have h2 : (jobs.map Job.id).countP (fun x => decide (x = id))
      = List.count id (jobs.map Job.id) := by
    rw [List.count_eq_countP]
    refine List.countP_congr ?_
    intro x _
    by_cases hx : x = id <;> simp [hx]
  rw [h1, h2]
  exact List.nodup_iff_count_le_one.mp hnd id

theorem runningCount_start_job_le (now : Nat) (jobs : List Job) (id : Nat)
    (hnd : (jobs.map Job.id).Nodup) :
    runningCount (start_job now jobs id) ≤ runningCount jobs + 1 := by
  unfold start_job update_store runningCount
  rw [List.countP_map]
  have hmono : jobs.countP ((fun j => decide (j.status = .running)) ∘
      (fun j => if j.id = id then update_job_status now j .running none none else j))
      ≤ jobs.countP (fun j => decide (j.status = .running) || decide (j.id = id)) := by
    refine List.countP_mono_left ?_
    intro j _ hj
    simp only [Function.comp_apply] at hj
    by_cases hid : j.id = id
    · simp [hid]
    · rw [if_neg hid] at hj
      simp [hj]
  refine le_trans hmono (le_trans (countP_or_le _ _ jobs) ?_)
  have := countP_id_le_one jobs id hnd
  omega

theorem runningCount_fold_start (now : Nat) :
    ∀ (sel : List Job) (jobs : List Job), (jobs.map Job.id).Nodup →
      runningCount (sel.foldl (fun js j => start_job now js j.id) jobs)
        ≤ runningCount jobs + sel.length ∧
      (sel.foldl (fun js j => start_job now js j.id) jobs).map Job.id
        = jobs.map Job.id := by
  intro sel
  induction sel with
  | nil =>
    intro jobs _
    exact ⟨Nat.le_add_right _ 0, rfl⟩
  | cons a t ih =>
    intro jobs hnd
    simp only [List.foldl_cons, List.length_cons]
    have hnd1 : ((start_job now jobs a.id).map Job.id).Nodup := by
      rw [map_id_start_job]; exact hnd
    obtain ⟨ihle, ihid⟩ := ih (start_job now jobs a.id) hnd1
    refine ⟨?_, by rw [ihid, map_id_start_job]⟩
    have hone := runningCount_start_job_le now jobs a.id hnd
    omega

theorem process_iteration_bound (now mp : Nat) (jobs : List Job)
    (hnd : (jobs.map Job.id).Nodup) :
    runningCount (process_iteration now mp jobs) ≤ max (runningCount jobs) mp ∧
    (process_iteration now mp jobs).map Job.id = jobs.map Job.id := by
  unfold process_iteration
  have hid1 : (check_timeouts now jobs).map Job.id = jobs.map Job.id :=
    map_id_check_timeouts ..
  have hnd1 : ((check_timeouts now jobs).map Job.id).Nodup := by
    rw [hid1]; exact hnd
  have hle1 : runningCount (check_timeouts now jobs) ≤ runningCount jobs :=
    runningCount_check_timeouts_le ..
  by_cases hcap : runningCount (check_timeouts now jobs) < mp
  · rw [if_pos hcap]
    obtain ⟨hfle, hfid⟩ := runningCount_fold_start now
      (get_pending_jobs (check_timeouts now jobs) (mp - runningCount (check_timeouts now jobs)))
      (check_timeouts now jobs) hnd1
    have hlen : (get_pending_jobs (check_timeouts now jobs)
        (mp - runningCount (check_timeouts now jobs))).length
        ≤ mp - runningCount (check_timeouts now jobs) := by
      unfold get_pending_jobs
      rw [List.length_take]
      exact inf_le_left
    constructor
    · refine le_trans ?_ (le_max_right (runningCount jobs) mp)
      show runningCount (List.foldl (fun js j => start_job now js j.id)
        (check_timeouts now jobs)
        (get_pending_jobs (check_timeouts now jobs)
          (mp - runningCount (check_timeouts now jobs)))) ≤ mp
      omega
    · show (List.foldl (fun js j => start_job now js j.id)
        (check_timeouts now jobs)
        (get_pending_jobs (check_timeouts now jobs)
          (mp - runningCount (check_timeouts now jobs)))).map Job.id = jobs.map Job.id
      rw [hfid, hid1]
  · rw [if_neg hcap]
    exact ⟨le_trans hle1 (le_max_left _ _), hid1⟩

theorem mem_le_foldr_max (l : List Nat) (x : Nat) (h : x ∈ l) :
    x ≤ l.foldr max 0 := by
  induction l with
  | nil => cases h
  | cons a t ih =>
    rcases List.mem_cons.mp h with h | h
    · subst h
      exact le_max_left _ _
    · exact le_trans (ih h) (le_max_right _ _)

theorem freshId_not_mem (jobs : List Job) : freshId jobs ∉ jobs.map Job.id := by
  intro hmem
  have := mem_le_foldr_max (jobs.map Job.id) (freshId jobs) hmem
  unfold freshId at this
  omega

theorem runningCount_filter_le (q : Job → Bool) (jobs : List Job) :
    runningCount (jobs.filter q) ≤ runningCount jobs := by
  unfold runningCount
  rw [List.countP_filter]
  refine List.countP_mono_left ?_
  intro j _ hj
  simp only [Bool.and_eq_true] at hj
  exact hj.1

theorem nodup_ids_filter (q : Job → Bool) (jobs : List Job)
    (hnd : (jobs.map Job.id).Nodup) : ((jobs.filter q).map Job.id).Nodup :=
  ((List.filter_sublist jobs).map Job.id).nodup hnd

theorem delete_job_snd_cases (jobs : List Job) (id : Nat) :
    (delete_job jobs id).2 = jobs ∨
    (delete_job jobs id).2 = jobs.filter (fun x => ¬ x.id = id) := by
  unfold delete_job
  cases jobs.find? (fun j => j.id = id) with
  | none => exact Or.inl rfl
  | some j =>
    by_cases hp : j.status = .pending <;> simp [hp]

/-- Events that write the jobs table: an external enqueue, one dispatcher
iteration (timeout sweep plus admission), an executor finishing its job
with a terminal write (asynchronous, so it may fire at any time — including
after a timeout overwrite, the documented race), an API delete, and the
periodic cleanup. -/
inductive QStep (mp : Nat) : List Job → List Job → Prop
  | enqueue (jobs : List Job) (now : Nat) (jt fp : String) (ps : Option Params) :
      QStep mp jobs (add_job now jobs jt fp ps)
  | tick (jobs : List Job) (now : Nat) :
      QStep mp jobs (process_iteration now mp jobs)
  | finish (jobs : List Job) (now id : Nat) (st : Status) (e r : Option String)
      (hst : st = .completed ∨ st = .failed) :
      QStep mp jobs (update_store now jobs id st e r)
  | del (jobs : List Job) (id : Nat) :
      QStep mp jobs (delete_job jobs id).2
  | clean (jobs : List Job) (cutoff : Nat) :
      QStep mp jobs (cleanup_old_jobs cutoff jobs)

/-- System invariant: primary-key ids are unique and the running count
respects the parallelism budget. -/
def QInv (mp : Nat) (jobs : List Job) : Prop :=
  (jobs.map Job.id).Nodup ∧ runningCount jobs ≤ mp

theorem QStep_preserves (mp : Nat) (jobs jobs2 : List Job)
    (hstep : QStep mp jobs jobs2) (hinv : QInv mp jobs) : QInv mp jobs2 := by
  obtain ⟨hnd, hrc⟩ := hinv
  cases hstep with
  | enqueue now jt fp ps =>
    constructor
    · unfold add_job
      rw [List.map_append, List.nodup_append]
      refine ⟨hnd, List.nodup_singleton _, ?_⟩
      intro x hx hx1
      simp only [List.map_cons, List.map_nil, List.mem_singleton] at hx1
      subst hx1
      exact freshId_not_mem jobs hx
    · unfold add_job runningCount
      rw [List.countP_append]
      simp only [List.countP_cons, List.countP_nil]
      simpa using hrc
  | tick now =>
    obtain ⟨hb, hids⟩ := process_iteration_bound now mp jobs hnd
    constructor
    · rw [hids]; exact hnd
    · exact le_trans hb (max_le hrc (Nat.le_refl mp))
  | finish now id st e r hst =>
    constructor
    · rw [map_id_update_store]; exact hnd
    · refine le_trans (runningCount_update_store_le now jobs id st e r ?_) hrc
      rcases hst with h | h <;> subst h <;> decide
  | del id =>
    rcases delete_job_snd_cases jobs id with h | h <;> rw [h]
    · exact ⟨hnd, hrc⟩
    · exact ⟨nodup_ids_filter _ jobs hnd,
        le_trans (runningCount_filter_le _ jobs) hrc⟩
  | clean cutoff =>
    exact ⟨nodup_ids_filter _ jobs hnd,
      le_trans (runningCount_filter_le _ jobs) hrc⟩

theorem QInv_reachable (mp : Nat) (s s2 : List Job) (hinv : QInv mp s)
    (h : Relation.ReflTransGen (QStep mp) s s2) : QInv mp s2 := by
  induction h with
  | refl => exact hinv
  | tail _ hstep ih => exact QStep_preserves mp _ _ hstep ih

theorem createdLe_trans (x y z : Job) (h1 : createdLe x y = true)
    (h2 : createdLe y z = true) : createdLe x z = true := by
  simp only [createdLe, decide_eq_true_eq] at h1 h2 ⊢
  omega

theorem createdLe_total (x y : Job) : (createdLe x y || createdLe y x) = true := by
  simp only [createdLe, Bool.or_eq_true, decide_eq_true_eq]
  exact Nat.le_total _ _

theorem get_pending_oldest (jobs : List Job) (limit : Nat) :
    (get_pending_jobs jobs limit).length ≤ limit ∧
    (∀ a ∈ get_pending_jobs jobs limit, a.status = .pending) ∧
    (∀ a ∈ get_pending_jobs jobs limit, ∀ b ∈ jobs, b.status = .pending →
        b ∉ get_pending_jobs jobs limit → a.created_at ≤ b.created_at) := by
  have hperm := List.mergeSort_perm (jobs.filter (fun j => j.status = .pending)) createdLe
  refine ⟨?_, ?_, ?_⟩
  · unfold get_pending_jobs
    rw [List.length_take]
    exact inf_le_left
  · intro a ha
    have ham : a ∈ (jobs.filter (fun j => j.status = .pending)).mergeSort createdLe :=
      List.take_subset _ _ ha
    have := List.mem_filter.mp (hperm.mem_iff.mp ham)
    simpa using this.2
  · intro a ha b hb hbp hbn
    have hbm : b ∈ (jobs.filter (fun j => j.status = .pending)).mergeSort createdLe :=
      hperm.mem_iff.mpr (List.mem_filter.mpr ⟨hb, by simpa using hbp⟩)
    have hsorted := List.sorted_mergeSort createdLe_trans createdLe_total
      (jobs.filter (fun j => j.status = .pending))
    rw [← List.take_append_drop limit
      ((jobs.filter (fun j => j.status = .pending)).mergeSort createdLe)] at hbm hsorted
    have hbdrop : b ∈ ((jobs.filter (fun j => j.status = .pending)).mergeSort
        createdLe).drop limit := by
      rcases List.mem_append.mp hbm with h | h
      · exact absurd h hbn
      · exact h
    have := (List.pairwise_append.mp hsorted).2.2 a ha b hbdrop
    simpa [createdLe] using this

/-- C3: get_pending_jobs returns at most the requested number of rows, all
pending, and no pending row outside the selection is older than any
selected row (oldest-first admission); one dispatcher iteration never
raises the running count above max (previous count) max_parallel; and from
any state satisfying the id-uniqueness and running-bound invariant, every
state reachable through enqueues, dispatcher iterations, executor
completions, deletes and cleanups keeps count(running) ≤ max_parallel. -/
theorem C3_admission_bound :
    (∀ jobs limit, (get_pending_jobs jobs limit).length ≤ limit ∧
        (∀ a ∈ get_pending_jobs jobs limit, a.status = .pending) ∧
        (∀ a ∈ get_pending_jobs jobs limit, ∀ b ∈ jobs, b.status = .pending →
            b ∉ get_pending_jobs jobs limit → a.created_at ≤ b.created_at)) ∧
    (∀ now mp jobs, (jobs.map Job.id).Nodup →
        runningCount (process_iteration now mp jobs) ≤ max (runningCount jobs) mp) ∧
    (∀ mp jobs jobs2, QInv mp jobs → Relation.ReflTransGen (QStep mp) jobs jobs2 →
        runningCount jobs2 ≤ mp) := by
  refine ⟨get_pending_oldest, ?_, ?_⟩
  · intro now mp jobs hnd
    exact (process_iteration_bound now mp jobs hnd).1
  · intro mp jobs jobs2 hinv h
    exact (QInv_reachable mp jobs jobs2 hinv h).2

/-- Concrete store for the C3 witness: two pending jobs with distinct ids. -/
def demoPendingJobs : List Job :=
  [{ id := 1, job_type := "extract", status := .pending, file_path := "a.mkv",
     params := none, created_at := 3, started_at := none, completed_at := none,
     error_message := none, result := none },
   { id := 2, job_type := "translate", status := .pending, file_path := "b.srt",
     params := none, created_at := 5, started_at := none, completed_at := none,
     error_message := none, result := none }]

/-- Closed instantiation of C3: with max_parallel = 1, a dispatcher
iteration over two pending jobs leaves at most one job running. -/
theorem C3_admission_bound_witness :
    runningCount (process_iteration 10 1 demoPendingJobs) ≤ 1 :=
  C3_admission_bound.2.2 1 demoPendingJobs (process_iteration 10 1 demoPendingJobs)
    ⟨by decide, by decide⟩
    (Relation.ReflTransGen.single (QStep.tick demoPendingJobs 10))

/-! ## Supporting facts about app.py's cooldown-aware rotation

The API layer's _switch_to_next_api_key is the function the spec's
AdvanceToNextCredential description matches; these lemmas record that it
really is a no-op below 2 keys and that its cyclic scan never selects a
candidate still in cooldown. The job executor does not call it. -/

theorem app_switch_short_list (now : Nat) (settings : Settings) (provider : String)
    (h : (dget settings.provider_keys provider []).length ≤ 1) :
    app_switch_to_next_api_key now settings provider = settings := by
  unfold app_switch_to_next_api_key
  rw [if_pos h]

theorem scanNextKey_not_in_cooldown (now retry_days : Nat) (keys : List KeyInfo)
    (ci : Nat) : ∀ (offs : List Nat) (n : Nat),
    scanNextKey now retry_days keys ci offs = some n →
    keyInCooldown now retry_days (keys.getD n default) = false := by
  intro offs
  induction offs with
  | nil =>
    intro n h
    cases h
  | cons o rest ih =>
    intro n h
    unfold scanNextKey at h
    by_cases hc : keyInCooldown now retry_days (keys.getD ((ci + o) % keys.length) default) = true
    · rw [if_pos hc] at h
      exact ih n h
    · rw [if_neg hc] at h
      injection h with h
      subst h
      simpa using hc

theorem app_switch_all_in_cooldown (now : Nat) (settings : Settings) (provider : String)
    (hscan : scanNextKey now (dget settings.retry_after_days provider 0)
        (dget settings.provider_keys provider [])
        (((dget settings.provider_keys provider []).findIdx? (fun k => k.active)).getD 0)
        (List.range' 1 ((dget settings.provider_keys provider []).length - 1)) = none) :
    app_switch_to_next_api_key now settings provider = settings := by
  simp only [app_switch_to_next_api_key]
  by_cases hlen : (dget settings.provider_keys provider []).length ≤ 1
  · rw [if_pos hlen]
  · rw [if_neg hlen, hscan]

theorem app_switch_selected_active (now : Nat) (settings : Settings) (provider : String)
    (n : Nat)
    (hlen : ¬ (dget settings.provider_keys provider []).length ≤ 1)
    (hscan : scanNextKey now (dget settings.retry_after_days provider 0)
        (dget settings.provider_keys provider [])
        (((dget settings.provider_keys provider []).findIdx? (fun k => k.active)).getD 0)
        (List.range' 1 ((dget settings.provider_keys provider []).length - 1)) = some n) :
    dget (app_switch_to_next_api_key now settings provider).provider_keys provider []
      = (dget settings.provider_keys provider []).enum.map
          (fun p => { p.2 with active := decide (p.1 = n) }) ∧
    keyInCooldown now (dget settings.retry_after_days provider 0)
      ((dget settings.provider_keys provider []).getD n default) = false := by
  constructor
  · simp only [app_switch_to_next_api_key]
    rw [if_neg hlen, hscan]
    show dget (dset settings.provider_keys provider _) provider [] = _
    rw [dget_dset, if_pos rfl]
  · exact scanNextKey_not_in_cooldown now _ _ _ _ n hscan

end SubCockpit
